import Mathlib

/-!
Shallow embedding of the `ngn-banks-registry` image-processing workflow
(`src/scripts/workflow.ts`, class `ImageProcessor`), together with theorems
about its validation, matching, upload and cleanup behaviour.

Modelling conventions:
* JS strings are Lean `String`s; a nullable / possibly-undefined string is
  `Option String`, and JS truthiness of such a value (`null`, `undefined`
  and `""` are falsy) is the predicate `falsyStr`.
* File sizes are `Nat` (they come from `fs.stat`, always non-negative).
* Filesystem and network effects are passed in explicitly: the directory
  listing and `stat` results as a `FileSys` value, the outcome of the
  actual object-storage send as an oracle `net : String → Option String`
  (`none` = the read+send succeeded, `some m` = it threw with message `m`),
  and file-deletion outcomes as `deleteOk : String → Bool`.
* `console.*` output is modelled only where a claim depends on it
  (the warn/info messages of `processImage`, collected in a `logs` field);
  the emoji prefixes and the `sizeFormatted` suffix of those messages are
  elided (the latter is produced by `formatFileSize`, floating-point
  display formatting on which nothing here depends).
-/

/-- JS truthiness for a `string | null | undefined` value:
`null`/`undefined` and the empty string are falsy. -/
def falsyStr : Option String → Bool
  | none => true
  | some s => s == ""

/-- Does list `pre` stand at the head of list `l`? (char-list helper). -/
def leadsList : List Char → List Char → Bool
  | [], _ => true
  | _ :: _, [] => false
  | a :: xs, b :: ys => a == b && leadsList xs ys

/-- Substring test on char lists: does `sub` occur contiguously in `l`? -/
def hasSub (sub : List Char) : List Char → Bool
  | [] => sub.isEmpty
  | c :: rest => leadsList sub (c :: rest) || hasSub sub rest

/-- JS `s.includes(sub)`: substring containment test. -/
def jsIncludes (s sub : String) : Bool :=
  hasSub sub.data s.data

/-- Characters of the basename: everything after the last `/`
(models Node `path.basename` for paths without a trailing slash,
the only shape that occurs in this program). -/
def basenameChars (l : List Char) : List Char :=
  (l.reverse.takeWhile (fun c => c ≠ '/')).reverse

/-- Node `path.basename` (for paths without a trailing slash). -/
def basename (s : String) : String :=
  ⟨basenameChars s.data⟩

/-- Node `path.extname` on a slash-free basename `b`: the substring from the
last `.` of `b` to its end; empty when `b` has no dot, when the last dot is
the first character (dotfile), or when `b` is exactly `".."`. -/
def extnameBase (b : List Char) : List Char :=
  if b = ['.', '.'] then []
  else
    let afterRev := b.reverse.takeWhile (fun c => c ≠ '.')
    if afterRev.length = b.length then []
    else if b.length - afterRev.length - 1 = 0 then []
    else '.' :: afterRev.reverse

/-- Node `path.extname`: extension of the basename of the path. -/
def extname (s : String) : String :=
  ⟨extnameBase (basenameChars s.data)⟩

/-- JS `String.prototype.toLowerCase` for the ASCII strings involved here
(exercised only on extensions such as `".PNG"`). -/
def strToLower (s : String) : String :=
  ⟨s.data.map Char.toLower⟩

/-- JS `parseInt` never throws on a string argument (it returns `NaN` on
garbage), so the `try`/`catch` in `extractCode` can never take its `catch`
branch.  This constant records that fact. -/
def parseIntThrows (_ : String) : Bool := false

/-- Model of `ImageProcessor.extractCode` (workflow.ts:147-155): strips a trailing
`.ext` (regex `\.[^/.]+$`) from the filename, then `try { parseInt(code) }
catch { return null }`.  Since `parseInt` never throws, the `null` branch
is dead and the stripped string is always returned. -/
def stripLastExt (s : String) : String :=
  let rev := s.data.reverse
  let extRev := rev.takeWhile (fun c => c ≠ '.' ∧ c ≠ '/')
  if extRev.length = 0 then s
  else
    match rev.drop extRev.length with
    | '.' :: rest => ⟨rest.reverse⟩
    | _ => s

def extractCode (imagePath : String) : Option String :=
  let code := stripLastExt imagePath
  if parseIntThrows code then none
  else some code

example : extractCode "123.png" = some "123" := by decide
example : extractCode "logo-a.png" = some "logo-a" := by decide
example : extractCode "foo" = some "foo" := by decide
example : extractCode "foo." = some "foo." := by decide
example : extractCode "a.b.c" = some "a.b" := by decide
example : extname "123.PNG" = ".PNG" := by decide
example : extname "dir/123.png" = ".png" := by decide
example : extname "noext" = "" := by decide
example : basename "a/b/c.png" = "c.png" := by decide
example : jsIncludes "https://cdn/logo/default-image" "default-image" = true := by decide
example : jsIncludes "https://cdn/logo/77" "default-image" = false := by decide

/-! ## Data model -/

/-- An institution record from `banks.json` (interface `Bank`): the fields
the workflow reads (`code`, `nipBankCode`, `name`) plus the one field it
may write (`icon`, possibly absent). -/
structure Bank where
  code : String
  nipBankCode : String
  name : String
  icon : Option String
  deriving Repr, DecidableEq

/-- Model of `R2Config` (workflow.ts:78-84). -/
structure R2Config where
  accessKeyId : String
  secretAccessKey : String
  accountId : String
  bucketName : String
  publicDomain : String
  deriving Repr, DecidableEq

/-- The processor's configuration fields set in the constructor
(workflow.ts:97-130).  The `s3Client` is created exactly when `r2Config`
is present, so a single `Option R2Config` models both fields. -/
structure Config where
  supportedFormats : List String
  maxFileSize : Nat
  minFileSize : Nat
  isCI : Bool
  r2Config : Option R2Config
  deriving Repr, DecidableEq

def defaultSupportedFormats : List String :=
  [".jpg", ".jpeg", ".png", ".gif", ".svg"]

/-- The MIME lookup table `this.mimeTypes` (workflow.ts:118-129). -/
def mimeTypes : List (String × String) :=
  [(".jpg", "image/jpeg"), (".jpeg", "image/jpeg"), (".png", "image/png"),
   (".gif", "image/gif"), (".webp", "image/webp"), (".svg", "image/svg+xml"),
   (".bmp", "image/bmp"), (".ico", "image/x-icon"), (".tiff", "image/tiff"),
   (".tif", "image/tiff")]

/-- Association-list lookup modelling `this.mimeTypes[ext] || "unknown"`. -/
def lookupMime : List (String × String) → String → String
  | [], _ => "unknown"
  | (k, v) :: rest, ext => if k == ext then v else lookupMime rest ext

/-- The descriptor `ImageInfo` (workflow.ts:27-39).  The `sizeFormatted`,
`created` and `modified` fields are omitted: they are display-only
(`sizeFormatted` is floating-point formatting) and nothing branches on
them. -/
structure ImageInfo where
  path : String
  name : String
  code : Option String
  extension : String
  size : Nat
  type : String
  isSupported : Bool
  isValidSize : Bool
  deriving Repr, DecidableEq

/-- Model of `ImageProcessor.getImageInfo` (workflow.ts:159-184), given that
`fs.stat` succeeded with size `size`.  (A failing `stat` is handled at the
call site, where it yields no descriptor at all.) -/
def getImageInfo (cfg : Config) (imagePath : String) (size : Nat) : ImageInfo :=
  let ext := strToLower (extname imagePath)
  let bname := basename imagePath
  { path := imagePath
    name := bname
    code := extractCode bname
    extension := ext
    size := size
    type := lookupMime mimeTypes ext
    isSupported := cfg.supportedFormats.contains ext
    isValidSize := decide (cfg.minFileSize ≤ size) && decide (size ≤ cfg.maxFileSize) }

/-! ## Upload gateway -/

/-- JS template interpolation of a `string | null` value. -/
def optStr : Option String → String
  | none => "null"
  | some s => s

/-- Model of `ImageProcessor.uploadToR2` (workflow.ts:293-326).  The pair's second
component records whether a storage operation (file read + `PutObject`
send) was actually attempted.  `net info.path = none` means the read and
send succeeded; `some m` means one of them threw with message `m`. -/
def uploadToR2 (r2 : Option R2Config) (net : String → Option String)
    (info : ImageInfo) : Except String String × Bool :=
  match r2 with
  | none => (Except.error "R2 client not configured", false)
  | some c =>
    match net info.path with
    | some m => (Except.error ("Failed to upload image to R2: " ++ m), true)
    | none => (Except.ok (c.publicDomain ++ "/logo/" ++ optStr info.code), true)

/-! ## Validation & matching engine -/

/-- The error taxonomy (workflow.ts:23-25): `ImageValidationError`,
`ImageBankMatchError`, `FailedUploadError`. -/
inductive ProcessError where
  | validationError (msg : String)
  | bankMatchError (msg : String)
  | failedUploadError (msg : String)
  deriving Repr, DecidableEq

/-- The predicate of the `findIndex` lambda (workflow.ts:356-359):
`bank.code === ImageInfo.code || bank.nipBankCode === ImageInfo.code`. -/
def bankMatches (code : Option String) (b : Bank) : Bool :=
  code == some b.code || code == some b.nipBankCode

/-- JS `Array.prototype.findIndex`, as an `Option Nat` (the source checks
the `-1` sentinel immediately, so the option models it faithfully). -/
def jsFindIndex (p : α → Bool) : List α → Option Nat
  | [] => none
  | a :: l => if p a then some 0 else (jsFindIndex p l).map (· + 1)

/-- The test guarding the icon-already-set short-circuit
(workflow.ts:371): `bankMatch?.icon && !bankMatch?.icon.includes("default-image")`. -/
def nonPlaceholderIcon : Option String → Bool
  | none => false
  | some s => !(s == "") && !(jsIncludes s "default-image")

instance exceptDecEq {ε α : Type} [DecidableEq ε] [DecidableEq α] :
    DecidableEq (Except ε α) := fun x y =>
  match x, y with
  | Except.error a, Except.error b =>
    if h : a = b then Decidable.isTrue (by rw [h])
    else Decidable.isFalse (fun hc => h (by cases hc; rfl))
  | Except.error _, Except.ok _ => Decidable.isFalse (fun hc => by cases hc)
  | Except.ok _, Except.error _ => Decidable.isFalse (fun hc => by cases hc)
  | Except.ok a, Except.ok b =>
    if h : a = b then Decidable.isTrue (by rw [h])
    else Decidable.isFalse (fun hc => h (by cases hc; rfl))

/-- Everything observable about one `processImage` call: its returned
value (`Except` error or `string | undefined` success), the registry list
after the call, the (possibly code-overwritten) descriptor, whether
`uploadToR2` was invoked, whether a storage operation was attempted inside
it, and the `console.warn`/`info`/`error` messages `processImage` itself
printed. -/
structure ProcessOutcome where
  result : Except ProcessError (Option String)
  banks : List Bank
  info : ImageInfo
  uploadCalled : Bool
  storageAttempted : Bool
  logs : List String
  deriving Repr, DecidableEq

/-- The tail of `ImageProcessor.processImage` (workflow.ts:366-391) once a
registry record `bank` has been found at index `i`: overwrite the
descriptor's code with the canonical `nipBankCode`, then the
icon-already-set short-circuit, the CI short-circuit, and finally the
upload (recording the new URL on the matched record on success). -/
def processMatched (cfg : Config) (net : String → Option String)
    (banks : List Bank) (i : Nat) (bank : Bank) (info : ImageInfo) : ProcessOutcome :=
  let info2 := { info with code := some bank.nipBankCode }
  if nonPlaceholderIcon bank.icon then
    { result := Except.ok bank.icon
      banks := banks, info := info2, uploadCalled := false, storageAttempted := false
      logs := [bank.name ++ " already has an icon"] }
  else if cfg.isCI then
    { result := Except.ok bank.icon
      banks := banks, info := info2, uploadCalled := false, storageAttempted := false
      logs := [] }
  else
    match uploadToR2 cfg.r2Config net info2 with
    | (Except.error m, att) =>
      { result := Except.error (ProcessError.failedUploadError m)
        banks := banks, info := info2, uploadCalled := true, storageAttempted := att
        logs := [m] }
    | (Except.ok url, att) =>
      { result := Except.ok (some url)
        banks := banks.set i { bank with icon := some url }
        info := info2, uploadCalled := true, storageAttempted := att
        logs := [] }

/-- Model of `ImageProcessor.processImage` (workflow.ts:328-391). -/
def processImage (cfg : Config) (net : String → Option String)
    (banks : List Bank) (info : ImageInfo) : ProcessOutcome :=
  if !info.isSupported then
    { result := Except.error (ProcessError.validationError ("Unsupported format: " ++ info.type))
      banks := banks, info := info, uploadCalled := false, storageAttempted := false
      logs := ["Unsupported format: " ++ info.type] }
  else if falsyStr info.code then
    { result := Except.error (ProcessError.bankMatchError ("No code found: " ++ info.name))
      banks := banks, info := info, uploadCalled := false, storageAttempted := false
      logs := ["No code found: " ++ info.name] }
  else if !info.isValidSize then
    { result := Except.error (ProcessError.validationError ("Invalid size: " ++ info.name))
      banks := banks, info := info, uploadCalled := false, storageAttempted := false
      logs := [if cfg.maxFileSize < info.size then "File too large: " ++ info.name
               else "File too small: " ++ info.name] }
  else
    match jsFindIndex (bankMatches info.code) banks with
    | none =>
      { result := Except.error (ProcessError.bankMatchError ("No bank found: " ++ info.name))
        banks := banks, info := info, uploadCalled := false, storageAttempted := false
        logs := ["No bank found: " ++ info.name] }
    | some i =>
      match banks[i]? with
      | none =>
        -- unreachable: a `jsFindIndex` result is always in range
        { result := Except.error (ProcessError.bankMatchError ("No bank found: " ++ info.name))
          banks := banks, info := info, uploadCalled := false, storageAttempted := false
          logs := ["No bank found: " ++ info.name] }
      | some bank => processMatched cfg net banks i bank info

/-! ## Directory scanner and run loop -/

/-- One entry of `fs.readdir(directory, { withFileTypes: true })`. -/
structure DirEntry where
  name : String
  isFile : Bool
  deriving Repr, DecidableEq

/-- The filesystem as the run observes it: whether the directory read
succeeds, its entries in enumeration order, and the `fs.stat` result for a
full path (`none` models a throwing `stat`, which makes `getImageInfo`
return `null`). -/
structure FileSys where
  readOk : Bool
  entries : List DirEntry
  stat : String → Option Nat

/-- Node `path.join(directory, name)` for a directory path without a
trailing slash and a plain entry name (the only shapes that occur here). -/
def joinPath (dir name : String) : String :=
  dir ++ "/" ++ name

/-- The outcome report (interface `ImageProcessReport`, workflow.ts:61-65). -/
structure Report where
  skipped : List (String × String)
  failed_upload : List String
  completed : List String
  deriving Repr, DecidableEq

/-- The fresh report `processDirectory` starts from (workflow.ts:227-231). -/
def emptyReport : Report :=
  { skipped := [], failed_upload := [], completed := [] }

/-- One step of the scan loop of `getAllImageFiles` (workflow.ts:195-208):
a file with supported (lower-cased) extension joins the path list, any
other file is appended to `skipped`, non-file entries are ignored. -/
def scanStep (cfg : Config) (dir : String) (acc : List String × Report)
    (e : DirEntry) : List String × Report :=
  if e.isFile then
    let ext := strToLower (extname e.name)
    if cfg.supportedFormats.contains ext then
      (acc.1 ++ [joinPath dir e.name], acc.2)
    else
      (acc.1, { acc.2 with
                skipped := acc.2.skipped ++ [(e.name, "Unsupported format: " ++ ext)] })
  else acc

/-- Model of `ImageProcessor.getAllImageFiles` (workflow.ts:189-217): returns the
supported file paths and the report extended with the scan-time skips.
A failing directory read yields the empty list (the error is only
logged). -/
def getAllImageFiles (cfg : Config) (dir : String) (fsys : FileSys)
    (report : Report) : List String × Report :=
  if fsys.readOk then fsys.entries.foldl (scanStep cfg dir) ([], report)
  else ([], report)

/-- The mutable state threaded through the `processDirectory` loop:
the registry array `this.banks`, the report, the `results` list and the
`processed` counter. -/
structure RunState where
  banks : List Bank
  report : Report
  results : List ImageInfo
  processed : Nat
  deriving Repr

/-- One iteration of the loop of `processDirectory` (workflow.ts:245-286)
for the path `imagePath`: a failing `stat` produces no descriptor and
changes nothing; otherwise the descriptor is appended to `results`,
`processImage` runs, and its classified result is routed into exactly one
report bucket (`ImageValidationError` and `ImageBankMatchError` → skipped
with the message as reason, `FailedUploadError` → failed_upload,
success → completed; the source's final catch-all skip branch is
unreachable because `processImage` returns only those three error
classes). -/
def processFile (cfg : Config) (net : String → Option String)
    (stat : String → Option Nat) (st : RunState) (imagePath : String) : RunState :=
  match stat imagePath with
  | none => st
  | some size =>
    let info := getImageInfo cfg imagePath size
    let out := processImage cfg net st.banks info
    let st1 : RunState :=
      { st with banks := out.banks, results := st.results ++ [info] }
    match out.result with
    | Except.error (ProcessError.validationError m) =>
      { st1 with report :=
          { st1.report with skipped := st1.report.skipped ++ [(info.name, m)] } }
    | Except.error (ProcessError.failedUploadError _) =>
      { st1 with report :=
          { st1.report with failed_upload := st1.report.failed_upload ++ [info.name] } }
    | Except.error (ProcessError.bankMatchError m) =>
      { st1 with report :=
          { st1.report with skipped := st1.report.skipped ++ [(info.name, m)] } }
    | Except.ok _ =>
      { st1 with processed := st1.processed + 1,
                 report :=
          { st1.report with completed := st1.report.completed ++ [info.name] } }

/-- Model of `ImageProcessor.processDirectory` (workflow.ts:222-291).  Returns the
final run state together with the `total` field of the returned object
(the number of supported files found).  The source's early return on an
empty file list coincides with folding over the empty list. -/
def processDirectory (cfg : Config) (net : String → Option String)
    (banks : List Bank) (dir : String) (fsys : FileSys) : RunState × Nat :=
  let scanned := getAllImageFiles cfg dir fsys emptyReport
  let st := scanned.1.foldl (processFile cfg net fsys.stat)
    { banks := banks, report := scanned.2, results := [], processed := 0 }
  (st, scanned.1.length)

/-! ## Cleanup coordinator -/

/-- The default placeholder icon URL interpolated in `cleanup`
(workflow.ts:519), the template of `this.r2Config?.publicDomain` followed
by `/logo/default-image` (JS renders an absent config as the string
`"undefined"`). -/
def defaultIconURL (r2 : Option R2Config) : String :=
  (match r2 with
   | some c => c.publicDomain
   | none => "undefined") ++ "/logo/default-image"

/-- Everything observable about one `cleanup` call. -/
structure CleanupResult where
  updatedBanks : List Bank
  writtenToStorage : Option (List Bank)
  deletionAttempts : List String
  deletedCount : Nat
  failedCount : Nat
  result : Option String
  deriving Repr, DecidableEq

/-- Model of `ImageProcessor.cleanup` (workflow.ts:510-574).  `deleteOk p = true`
means `fs.unlink` succeeds for completed entry `p`.  The `fs.writeFile`
call that would persist `updatedBanks` to the banks file is commented out
in the source (workflow.ts:524-527) — only a success message is printed —
so `writtenToStorage` is always `none`. -/
def cleanup (cfg : Config) (banks : List Bank) (deleteOk : String → Bool)
    (completedImages : List String) : CleanupResult :=
  let updatedBanks := banks.map (fun b =>
    { b with icon := if falsyStr b.icon then some (defaultIconURL cfg.r2Config) else b.icon })
  let written : Option (List Bank) := none
  if completedImages.isEmpty then
    { updatedBanks := updatedBanks, writtenToStorage := written
      deletionAttempts := [], deletedCount := 0, failedCount := 0, result := none }
  else
    let deleted := completedImages.countP (fun p => deleteOk p)
    let failed := completedImages.countP (fun p => !deleteOk p)
    { updatedBanks := updatedBanks, writtenToStorage := written
      deletionAttempts := completedImages
      deletedCount := deleted, failedCount := failed
      result :=
        if 0 < failed then
          some ("Failed to delete " ++ toString failed ++ " out of "
            ++ toString completedImages.length ++ " files")
        else none }

/-! ## Derived definitions and concrete fixtures -/

/-- Total number of bucket entries in a report. -/
def bucketCount (r : Report) : Nat :=
  r.skipped.length + r.failed_upload.length + r.completed.length

/-- A fully populated storage configuration, for concrete runs. -/
def r2A : R2Config :=
  { accessKeyId := "k", secretAccessKey := "s", accountId := "acct"
    bucketName := "bkt", publicDomain := "https://cdn" }

/-- The CLI configuration of `build.ts` (defaults, storage configured,
not CI), with the default 100KB/1KB size bounds of `workflow.ts`. -/
def cfgA : Config :=
  { supportedFormats := defaultSupportedFormats
    maxFileSize := 100 * 1024, minFileSize := 1024
    isCI := false, r2Config := some r2A }

/-- Same configuration running in CI mode (`ci.ts`). -/
def cfgCI : Config :=
  { cfgA with isCI := true }

/-- Same configuration with no storage configuration at all. -/
def cfgNoR2 : Config :=
  { cfgA with r2Config := none }

/-- A small concrete registry: one record with no icon, one with a real
icon, one with the placeholder icon. -/
def banksA : List Bank :=
  [ { code := "1", nipBankCode := "999001", name := "Alpha", icon := none }
  , { code := "77", nipBankCode := "999077", name := "Beta"
    , icon := some "https://cdn/logo/77" }
  , { code := "10", nipBankCode := "999010", name := "Gamma"
    , icon := some "https://cdn/logo/default-image" } ]

/-- A network oracle on which every storage send succeeds. -/
def netOkW (_ : String) : Option String := none

/-- A concrete `stat`: `imgs/77.png` and `imgs/10.jpg` exist with sizes in
bounds, everything else fails to stat. -/
def statW (p : String) : Option Nat :=
  if p == "imgs/77.png" then some 5000
  else if p == "imgs/10.jpg" then some 2048
  else if p == "imgs/1.png" then some 4096
  else none

/-- A concrete deletion oracle: deleting `20.png` fails, all else succeeds. -/
def dokW (p : String) : Bool :=
  !(p == "20.png")

/-- A concrete loop state for witness runs. -/
def stW : RunState :=
  { banks := banksA, report := emptyReport, results := [], processed := 0 }

/-- A concrete filesystem for witness runs: one supported and one
unsupported file in the directory. -/
def fsysW : FileSys :=
  { readOk := true
    entries := [ { name := "77.png", isFile := true }
               , { name := "notes.txt", isFile := true } ]
    stat := statW }

/-! ## Helper lemmas -/

theorem jsFindIndex_spec {α : Type} (p : α → Bool) (l : List α) (i : Nat)
    (h : jsFindIndex p l = some i) :
    ∃ hlt : i < l.length, p (l.get ⟨i, hlt⟩) = true ∧
      ∀ j (hj : j < l.length), j < i → p (l.get ⟨j, hj⟩) = false := by
  induction l generalizing i with
  | nil => simp [jsFindIndex] at h
  | cons a t ih =>
    by_cases hp : p a = true
    · simp [jsFindIndex, hp] at h
      subst h
      exact ⟨by simp, by simpa using hp, fun j hj hji => absurd hji (by omega)⟩
    · simp only [jsFindIndex, hp, if_neg, Bool.false_eq_true, not_false_iff,
        if_false, Option.map_eq_some'] at h
      obtain ⟨i', hi', rfl⟩ := h
      obtain ⟨hlt, hpi, hfirst⟩ := ih i' hi'
      refine ⟨by simpa using Nat.succ_lt_succ hlt, by simpa using hpi, ?_⟩
      intro j hj hji
      match j with
      | 0 => simpa using hp
      | j' + 1 => simpa using hfirst j' (by simpa using hj) (by omega)

theorem takeWhile_append_middle {α : Type} (p : α → Bool) (l1 l2 : List α) (a : α)
    (h1 : ∀ x ∈ l1, p x = true) (h2 : p a = false) :
    (l1 ++ a :: l2).takeWhile p = l1 := by
  induction l1 with
  | nil => simp [List.takeWhile, h2]
  | cons b bs ih =>
    simp only [List.cons_append, List.takeWhile_cons]
    rw [h1 b (by simp)]
    simp [ih (fun x hx => h1 x (by simp [hx]))]

theorem basenameChars_join (dir name : String) (h : '/' ∉ name.data) :
    basenameChars (joinPath dir name).data = name.data := by
  have hdata : (joinPath dir name).data = dir.data ++ '/' :: name.data := by
    show ((dir ++ "/") ++ name).data = _
    rw [String.data_append, String.data_append,
      show ("/" : String).data = ['/'] by decide]
    simp
  unfold basenameChars
  rw [hdata]
  have hrev : (dir.data ++ '/' :: name.data).reverse
      = name.data.reverse ++ '/' :: dir.data.reverse := by
    simp
  rw [hrev, takeWhile_append_middle]
  · simp
  · intro x hx
    simp only [List.mem_reverse] at hx
    simp only [decide_eq_true_eq]
    intro hxe
    exact h (hxe ▸ hx)
  · simp

theorem basenameChars_no_slash (name : String) (h : '/' ∉ name.data) :
    basenameChars name.data = name.data := by
  unfold basenameChars
  rw [List.takeWhile_eq_self_iff.mpr, List.reverse_reverse]
  intro x hx
  simp only [List.mem_reverse] at hx
  simp only [decide_eq_true_eq]
  intro hxe
  exact h (hxe ▸ hx)

theorem extname_join (dir name : String) (h : '/' ∉ name.data) :
    extname (joinPath dir name) = extname name := by
  unfold extname
  rw [basenameChars_join dir name h, basenameChars_no_slash name h]

theorem basename_join (dir name : String) (h : '/' ∉ name.data) :
    basename (joinPath dir name) = name := by
  unfold basename
  rw [basenameChars_join dir name h]

theorem invalid_size_msg_ne (a b : String) :
    ("Invalid size: " ++ a) ≠ ("Unsupported format: " ++ b) := by
  intro hc
  have h2 : ("Invalid size: " ++ a).data.head? = ("Unsupported format: " ++ b).data.head? := by
    rw [hc]
  rw [String.data_append, String.data_append] at h2
  have e1 : "Invalid size: ".data = 'I' :: "nvalid size: ".data := by decide
  have e2 : "Unsupported format: ".data = 'U' :: "nsupported format: ".data := by decide
  rw [e1, e2] at h2
  simp at h2

theorem processImage_matched (cfg : Config) (net : String → Option String)
    (banks : List Bank) (info : ImageInfo) (i : Nat) (hi : i < banks.length)
    (hs : info.isSupported = true) (hc : falsyStr info.code = false)
    (hv : info.isValidSize = true)
    (hfind : jsFindIndex (bankMatches info.code) banks = some i) :
    processImage cfg net banks info
      = processMatched cfg net banks i (banks.get ⟨i, hi⟩) info := by
  simp only [processImage, hs, hc, hv, hfind, Bool.not_true, Bool.false_eq_true,
    if_false, List.getElem?_eq_getElem hi, List.get_eq_getElem]

theorem processMatched_info_code (cfg : Config) (net : String → Option String)
    (banks : List Bank) (i : Nat) (bank : Bank) (info : ImageInfo) :
    (processMatched cfg net banks i bank info).info.code = some bank.nipBankCode := by
  unfold processMatched
  by_cases h1 : nonPlaceholderIcon bank.icon = true
  · simp [h1]
  · by_cases h2 : cfg.isCI = true
    · simp [h1, h2]
    · rcases hu : uploadToR2 cfg.r2Config net { info with code := some bank.nipBankCode }
        with ⟨res, att⟩
      cases res with
      | error m => simp [h1, h2, hu]
      | ok url => simp [h1, h2, hu]

theorem processFile_stat_none (cfg : Config) (net : String → Option String)
    (stat : String → Option Nat) (st : RunState) (path : String)
    (h : stat path = none) :
    processFile cfg net stat st path = st := by
  simp [processFile, h]

theorem processFile_partition_step (cfg : Config) (net : String → Option String)
    (stat : String → Option Nat) (st : RunState) (path : String) (size : Nat)
    (h : stat path = some size) :
    (∃ r, (processFile cfg net stat st path).report.skipped
            = st.report.skipped ++ [((getImageInfo cfg path size).name, r)]
        ∧ (processFile cfg net stat st path).report.failed_upload = st.report.failed_upload
        ∧ (processFile cfg net stat st path).report.completed = st.report.completed)
  ∨ ((processFile cfg net stat st path).report.skipped = st.report.skipped
        ∧ (processFile cfg net stat st path).report.failed_upload
            = st.report.failed_upload ++ [(getImageInfo cfg path size).name]
        ∧ (processFile cfg net stat st path).report.completed = st.report.completed)
  ∨ ((processFile cfg net stat st path).report.skipped = st.report.skipped
        ∧ (processFile cfg net stat st path).report.failed_upload = st.report.failed_upload
        ∧ (processFile cfg net stat st path).report.completed
            = st.report.completed ++ [(getImageInfo cfg path size).name]) := by
  simp only [processFile, h]
  cases hres : (processImage cfg net st.banks (getImageInfo cfg path size)).result with
  | error e =>
    cases e with
    | validationError m =>
      exact Or.inl ⟨m, by simp [hres], by simp [hres], by simp [hres]⟩
    | bankMatchError m =>
      exact Or.inl ⟨m, by simp [hres], by simp [hres], by simp [hres]⟩
    | failedUploadError m =>
      exact Or.inr (Or.inl ⟨by simp [hres], by simp [hres], by simp [hres]⟩)
  | ok v =>
    exact Or.inr (Or.inr ⟨by simp [hres], by simp [hres], by simp [hres]⟩)

theorem processFile_count (cfg : Config) (net : String → Option String)
    (stat : String → Option Nat) (st : RunState) (path : String) :
    bucketCount (processFile cfg net stat st path).report + st.results.length
      = bucketCount st.report + (processFile cfg net stat st path).results.length := by
  cases h : stat path with
  | none => rw [processFile_stat_none cfg net stat st path h]
  | some size =>
    simp only [processFile, h]
    cases hres : (processImage cfg net st.banks (getImageInfo cfg path size)).result with
    | error e => cases e <;> simp [hres, bucketCount] <;> omega
    | ok v => simp [hres, bucketCount]; omega

theorem processRun_count (cfg : Config) (net : String → Option String)
    (stat : String → Option Nat) (files : List String) :
    ∀ st : RunState,
      bucketCount (files.foldl (processFile cfg net stat) st).report + st.results.length
        = bucketCount st.report + (files.foldl (processFile cfg net stat) st).results.length := by
  induction files with
  | nil => intro st; simp
  | cons f fs ih =>
    intro st
    simp only [List.foldl_cons]
    have h1 := processFile_count cfg net stat st f
    have h2 := ih (processFile cfg net stat st f)
    omega

theorem scanStep_report (cfg : Config) (dir : String) (acc : List String × Report)
    (e : DirEntry) :
    (scanStep cfg dir acc e).2.failed_upload = acc.2.failed_upload
      ∧ (scanStep cfg dir acc e).2.completed = acc.2.completed := by
  by_cases hf : e.isFile = true
  · by_cases hm : strToLower (extname e.name) ∈ cfg.supportedFormats
    · simp [scanStep, hf, hm]
    · simp [scanStep, hf, hm]
  · simp [scanStep, hf]

theorem scanFold_report (cfg : Config) (dir : String) (es : List DirEntry) :
    ∀ acc : List String × Report,
      (es.foldl (scanStep cfg dir) acc).2.failed_upload = acc.2.failed_upload
        ∧ (es.foldl (scanStep cfg dir) acc).2.completed = acc.2.completed := by
  induction es with
  | nil => intro acc; exact ⟨rfl, rfl⟩
  | cons e es ih =>
    intro acc
    simp only [List.foldl_cons]
    have h1 := scanStep_report cfg dir acc e
    have h2 := ih (scanStep cfg dir acc e)
    exact ⟨h2.1.trans h1.1, h2.2.trans h1.2⟩

theorem scanFold_mem (cfg : Config) (dir : String) (es : List DirEntry) :
    ∀ (acc : List String × Report) (p : String),
      p ∈ (es.foldl (scanStep cfg dir) acc).1 →
      p ∈ acc.1 ∨ ∃ e, e ∈ es ∧ e.isFile = true ∧
        cfg.supportedFormats.contains (strToLower (extname e.name)) = true ∧
        p = joinPath dir e.name := by
  induction es with
  | nil => intro acc p h; exact Or.inl h
  | cons e es ih =>
    intro acc p h
    rcases ih (scanStep cfg dir acc e) p h with hacc | ⟨e1, he1, hf1, hc1, hp1⟩
    · by_cases hf : e.isFile = true
      · by_cases hc : strToLower (extname e.name) ∈ cfg.supportedFormats
        · simp [scanStep, hf, hc] at hacc
          rcases hacc with h1 | h2
          · exact Or.inl h1
          · exact Or.inr ⟨e, by simp, hf, by simpa using hc, h2⟩
        · simp [scanStep, hf, hc] at hacc
          exact Or.inl hacc
      · simp [scanStep, hf] at hacc
        exact Or.inl hacc
    · exact Or.inr ⟨e1, by simp [he1], hf1, hc1, hp1⟩

/-! ## Claim theorems -/

/-- C1: the spec claims `extractCode("logo-a.png") == null` and that a
descriptor's code is non-null only for numeric basenames.  In the source,
`parseInt` never throws, so the `catch { return null }` branch is dead:
`extractCode` returns the extension-stripped basename for every input.
This theorem evaluates the code at the spec's own example inputs:
`"123.png"` gives `"123"` as claimed, but `"logo-a.png"` gives
`"logo-a"`, not `null`. -/
theorem extractCode_dead_null_branch :
    extractCode "123.png" = some "123"
      ∧ extractCode "logo-a.png" = some "logo-a"
      ∧ extractCode "logo-a.png" ≠ none := by
  refine ⟨by decide, by decide, by decide⟩

/-- C3: `processImage` evaluates its rules in a fixed order and the first
failing rule determines the result: unsupported format → `ValidationError`,
null/empty code → `MatchError` ("no code found"), invalid size →
`ValidationError`, no matching registry record → `MatchError`
("no bank found"); and when `findIndex` returns index `i`, record `i`
matches, every earlier record does not (first match in store order wins),
processing continues with that record, and the descriptor's code is
overwritten with its `nipBankCode`. -/
theorem processImage_rule_order (cfg : Config) (net : String → Option String)
    (banks : List Bank) (info : ImageInfo) :
    (info.isSupported = false →
      (processImage cfg net banks info).result
        = Except.error (ProcessError.validationError ("Unsupported format: " ++ info.type))) ∧
    (info.isSupported = true → falsyStr info.code = true →
      (processImage cfg net banks info).result
        = Except.error (ProcessError.bankMatchError ("No code found: " ++ info.name))) ∧
    (info.isSupported = true → falsyStr info.code = false → info.isValidSize = false →
      (processImage cfg net banks info).result
        = Except.error (ProcessError.validationError ("Invalid size: " ++ info.name))) ∧
    (info.isSupported = true → falsyStr info.code = false → info.isValidSize = true →
      jsFindIndex (bankMatches info.code) banks = none →
      (processImage cfg net banks info).result
        = Except.error (ProcessError.bankMatchError ("No bank found: " ++ info.name))) ∧
    (∀ i, info.isSupported = true → falsyStr info.code = false → info.isValidSize = true →
      jsFindIndex (bankMatches info.code) banks = some i →
      ∃ hi : i < banks.length,
        bankMatches info.code (banks.get ⟨i, hi⟩) = true ∧
        (∀ j (hj : j < banks.length), j < i → bankMatches info.code (banks.get ⟨j, hj⟩) = false) ∧
        processImage cfg net banks info
          = processMatched cfg net banks i (banks.get ⟨i, hi⟩) info ∧
        (processImage cfg net banks info).info.code
          = some (banks.get ⟨i, hi⟩).nipBankCode) := by
  refine ⟨?_, ?_, ?_, ?_, ?_⟩
  · intro hs; simp [processImage, hs]
  · intro hs hc; simp [processImage, hs, hc]
  · intro hs hc hv; simp [processImage, hs, hc, hv]
  · intro hs hc hv hfind; simp [processImage, hs, hc, hv, hfind]
  · intro i hs hc hv hfind
    obtain ⟨hlt, hp, hfirst⟩ := jsFindIndex_spec (bankMatches info.code) banks i hfind
    have heq := processImage_matched cfg net banks info i hlt hs hc hv hfind
    refine ⟨hlt, hp, hfirst, heq, ?_⟩
    rw [heq]
    exact processMatched_info_code cfg net banks i (banks.get ⟨i, hlt⟩) info

/-- Witness for C3: a run on `imgs/77.png` (code `"77"`, size 5000, registry
`banksA`) matches the record at index 1 and the descriptor's code is
overwritten with its `nipBankCode` `"999077"`. -/
theorem processImage_rule_order_witness :
    (processImage cfgA netOkW banksA (getImageInfo cfgA "imgs/77.png" 5000)).info.code
      = some "999077" := by
  obtain ⟨hi, hp, hfirst, heq, hcode⟩ :=
    (processImage_rule_order cfgA netOkW banksA
      (getImageInfo cfgA "imgs/77.png" 5000)).2.2.2.2 1
      (by decide) (by decide) (by decide) (by decide)
  exact hcode.trans rfl

/-- C4: `isValidSize` is `minFileSize <= size <= maxFileSize` with both
bounds inclusive; for an invalid size the sub-reason logged is
"too large" exactly when `size > maxFileSize` and "too small" otherwise;
and at the boundaries, `size = maxFileSize` is valid while
`maxFileSize + 1` and `minFileSize - 1` are invalid. -/
theorem size_bounds_inclusive :
    (∀ (cfg : Config) (path : String) (size : Nat),
      (getImageInfo cfg path size).isValidSize = true
        ↔ (cfg.minFileSize ≤ size ∧ size ≤ cfg.maxFileSize)) ∧
    (∀ (cfg : Config) (net : String → Option String) (banks : List Bank) (info : ImageInfo),
      info.isSupported = true → falsyStr info.code = false → info.isValidSize = false →
      ((cfg.maxFileSize < info.size →
          (processImage cfg net banks info).logs = ["File too large: " ++ info.name]) ∧
       (info.size ≤ cfg.maxFileSize →
          (processImage cfg net banks info).logs = ["File too small: " ++ info.name]))) ∧
    (∀ (cfg : Config) (path : String),
      cfg.minFileSize ≤ cfg.maxFileSize → 1 ≤ cfg.minFileSize →
      (getImageInfo cfg path cfg.maxFileSize).isValidSize = true ∧
      (getImageInfo cfg path (cfg.maxFileSize + 1)).isValidSize = false ∧
      (getImageInfo cfg path (cfg.minFileSize - 1)).isValidSize = false) := by
  refine ⟨?_, ?_, ?_⟩
  · intro cfg path size
    simp [getImageInfo]
  · intro cfg net banks info hs hc hv
    constructor
    · intro hlarge
      simp [processImage, hs, hc, hv, hlarge]
    · intro hsmall
      have hnl : ¬ (cfg.maxFileSize < info.size) := by omega
      simp [processImage, hs, hc, hv, hnl]
  · intro cfg path hle hmin
    refine ⟨?_, ?_, ?_⟩ <;> simp [getImageInfo] <;> omega

/-- Witness for C4: with the default bounds (1KB/100KB), size 102400 is
valid, 102401 and 1023 are invalid, and an oversized `77.png` (200000
bytes) logs the "too large" sub-reason. -/
theorem size_bounds_inclusive_witness :
    ((getImageInfo cfgA "x" cfgA.maxFileSize).isValidSize = true ∧
     (getImageInfo cfgA "x" (cfgA.maxFileSize + 1)).isValidSize = false ∧
     (getImageInfo cfgA "x" (cfgA.minFileSize - 1)).isValidSize = false) ∧
    (processImage cfgA netOkW banksA (getImageInfo cfgA "imgs/77.png" 200000)).logs
      = ["File too large: " ++ (getImageInfo cfgA "imgs/77.png" 200000).name] := by
  constructor
  · exact size_bounds_inclusive.2.2 cfgA "x" (by decide) (by decide)
  · exact (size_bounds_inclusive.2.1 cfgA netOkW banksA
      (getImageInfo cfgA "imgs/77.png" 200000) (by decide) (by decide) (by decide)).1
      (by decide)

/-- Auxiliary: starting from the fresh report, the scanner only ever fills
the `skipped` bucket. -/
theorem getAllImageFiles_fresh_report (cfg : Config) (dir : String) (fsys : FileSys) :
    (getAllImageFiles cfg dir fsys emptyReport).2.failed_upload = []
      ∧ (getAllImageFiles cfg dir fsys emptyReport).2.completed = [] := by
  unfold getAllImageFiles
  by_cases h : fsys.readOk = true
  · simp only [h, if_true]
    have hp := scanFold_report cfg dir fsys.entries ([], emptyReport)
    simpa [emptyReport] using hp
  · simp [h, emptyReport]

/-- C2: each descriptor produced during a run is routed into exactly one of
the three report buckets.  Per loop iteration: a failing `stat` changes the
report not at all, and a produced descriptor appends its name to exactly
one bucket (skipped with some reason, failed_upload, or completed),
leaving the other two untouched.  Over a whole `processDirectory` run, the
total number of bucket entries is exactly the scanner's skip count plus
the number of descriptors produced — no duplication, no omission. -/
theorem report_partition :
    (∀ (cfg : Config) (net : String → Option String) (stat : String → Option Nat)
        (st : RunState) (path : String),
      stat path = none → (processFile cfg net stat st path).report = st.report) ∧
    (∀ (cfg : Config) (net : String → Option String) (stat : String → Option Nat)
        (st : RunState) (path : String) (size : Nat),
      stat path = some size →
      (∃ r, (processFile cfg net stat st path).report.skipped
              = st.report.skipped ++ [((getImageInfo cfg path size).name, r)]
          ∧ (processFile cfg net stat st path).report.failed_upload = st.report.failed_upload
          ∧ (processFile cfg net stat st path).report.completed = st.report.completed)
      ∨ ((processFile cfg net stat st path).report.skipped = st.report.skipped
          ∧ (processFile cfg net stat st path).report.failed_upload
              = st.report.failed_upload ++ [(getImageInfo cfg path size).name]
          ∧ (processFile cfg net stat st path).report.completed = st.report.completed)
      ∨ ((processFile cfg net stat st path).report.skipped = st.report.skipped
          ∧ (processFile cfg net stat st path).report.failed_upload = st.report.failed_upload
          ∧ (processFile cfg net stat st path).report.completed
              = st.report.completed ++ [(getImageInfo cfg path size).name])) ∧
    (∀ (cfg : Config) (net : String → Option String) (banks : List Bank)
        (dir : String) (fsys : FileSys),
      bucketCount (processDirectory cfg net banks dir fsys).1.report
        = (getAllImageFiles cfg dir fsys emptyReport).2.skipped.length
          + (processDirectory cfg net banks dir fsys).1.results.length) := by
  refine ⟨?_, ?_, ?_⟩
  · intro cfg net stat st path h
    rw [processFile_stat_none cfg net stat st path h]
  · intro cfg net stat st path size h
    exact processFile_partition_step cfg net stat st path size h
  · intro cfg net banks dir fsys
    have haux := getAllImageFiles_fresh_report cfg dir fsys
    have hrun := processRun_count cfg net fsys.stat
      (getAllImageFiles cfg dir fsys emptyReport).1
      { banks := banks, report := (getAllImageFiles cfg dir fsys emptyReport).2
        results := [], processed := 0 }
    simp only [processDirectory]
    simp only [List.length_nil, Nat.add_zero] at hrun
    rw [hrun]
    unfold bucketCount
    rw [haux.1, haux.2]
    simp

/-- Witness for C2: processing the existing file `imgs/77.png` from state
`stW` appends its name to exactly one bucket. -/
theorem report_partition_witness :
    (∃ r, (processFile cfgA netOkW statW stW "imgs/77.png").report.skipped
            = stW.report.skipped ++ [((getImageInfo cfgA "imgs/77.png" 5000).name, r)]
        ∧ (processFile cfgA netOkW statW stW "imgs/77.png").report.failed_upload
            = stW.report.failed_upload
        ∧ (processFile cfgA netOkW statW stW "imgs/77.png").report.completed
            = stW.report.completed)
    ∨ ((processFile cfgA netOkW statW stW "imgs/77.png").report.skipped = stW.report.skipped
        ∧ (processFile cfgA netOkW statW stW "imgs/77.png").report.failed_upload
            = stW.report.failed_upload ++ [(getImageInfo cfgA "imgs/77.png" 5000).name]
        ∧ (processFile cfgA netOkW statW stW "imgs/77.png").report.completed
            = stW.report.completed)
    ∨ ((processFile cfgA netOkW statW stW "imgs/77.png").report.skipped = stW.report.skipped
        ∧ (processFile cfgA netOkW statW stW "imgs/77.png").report.failed_upload
            = stW.report.failed_upload
        ∧ (processFile cfgA netOkW statW stW "imgs/77.png").report.completed
            = stW.report.completed ++ [(getImageInfo cfgA "imgs/77.png" 5000).name]) :=
  report_partition.2.1 cfgA netOkW statW stW "imgs/77.png" 5000 (by decide)

/-- C5: when the matched record carries a truthy icon URL that does not
contain the marker substring "default-image", `processImage` returns that
icon immediately, calls no upload, and leaves the registry unchanged;
when the icon does contain the marker (placeholder) — and the run is not
in CI mode — processing proceeds to attempt an upload. -/
theorem icon_short_circuit (cfg : Config) (net : String → Option String)
    (banks : List Bank) (info : ImageInfo) (i : Nat) (hi : i < banks.length)
    (hs : info.isSupported = true) (hc : falsyStr info.code = false)
    (hv : info.isValidSize = true)
    (hfind : jsFindIndex (bankMatches info.code) banks = some i) :
    (nonPlaceholderIcon (banks.get ⟨i, hi⟩).icon = true →
      (processImage cfg net banks info).result = Except.ok (banks.get ⟨i, hi⟩).icon
        ∧ (processImage cfg net banks info).banks = banks
        ∧ (processImage cfg net banks info).uploadCalled = false) ∧
    (∀ s, (banks.get ⟨i, hi⟩).icon = some s → jsIncludes s "default-image" = true →
      cfg.isCI = false →
      (processImage cfg net banks info).uploadCalled = true) := by
  have heq := processImage_matched cfg net banks info i hi hs hc hv hfind
  rw [heq]
  simp only [List.get_eq_getElem]
  constructor
  · intro hnp
    simp [processMatched, hnp]
  · intro s hicon hmarker hci
    have hnp : nonPlaceholderIcon banks[i].icon = false := by
      rw [hicon]
      simp [nonPlaceholderIcon, hmarker]
    simp only [processMatched, hnp, Bool.false_eq_true, if_false, hci]
    rcases hu : uploadToR2 cfg.r2Config net
        { info with code := some banks[i].nipBankCode } with ⟨res, att⟩
    cases res with
    | error m => simp [hu]
    | ok url => simp [hu]

/-- Witness for C5: `imgs/77.png` matches the record at index 1, whose icon
`https://cdn/logo/77` is already set and non-placeholder: the result is
that icon, with no upload; and `imgs/10.jpg` matches the record at index
2, whose icon is the placeholder, so an upload is attempted. -/
theorem icon_short_circuit_witness :
    ((processImage cfgA netOkW banksA (getImageInfo cfgA "imgs/77.png" 5000)).result
        = Except.ok (banksA.get ⟨1, by decide⟩).icon
      ∧ (processImage cfgA netOkW banksA (getImageInfo cfgA "imgs/77.png" 5000)).banks = banksA
      ∧ (processImage cfgA netOkW banksA (getImageInfo cfgA "imgs/77.png" 5000)).uploadCalled
          = false)
    ∧ (processImage cfgA netOkW banksA (getImageInfo cfgA "imgs/10.jpg" 2048)).uploadCalled
        = true := by
  constructor
  · exact (icon_short_circuit cfgA netOkW banksA (getImageInfo cfgA "imgs/77.png" 5000) 1
      (by decide) (by decide) (by decide) (by decide) (by decide)).1 (by decide)
  · exact (icon_short_circuit cfgA netOkW banksA (getImageInfo cfgA "imgs/10.jpg" 2048) 2
      (by decide) (by decide) (by decide) (by decide) (by decide)).2
      "https://cdn/logo/default-image" (by decide) (by decide) (by decide)

/-- C6: in CI mode, `processImage` on a supported, correctly sized, matched
descriptor returns the matched record's existing icon value, calls no
upload (so no storage operation is attempted), and leaves every registry
record unchanged. -/
theorem ci_frame (cfg : Config) (net : String → Option String)
    (banks : List Bank) (info : ImageInfo) (i : Nat) (hi : i < banks.length)
    (hci : cfg.isCI = true)
    (hs : info.isSupported = true) (hc : falsyStr info.code = false)
    (hv : info.isValidSize = true)
    (hfind : jsFindIndex (bankMatches info.code) banks = some i) :
    (processImage cfg net banks info).result = Except.ok (banks.get ⟨i, hi⟩).icon
      ∧ (processImage cfg net banks info).banks = banks
      ∧ (processImage cfg net banks info).uploadCalled = false
      ∧ (processImage cfg net banks info).storageAttempted = false := by
  have heq := processImage_matched cfg net banks info i hi hs hc hv hfind
  rw [heq]
  simp only [List.get_eq_getElem]
  by_cases hnp : nonPlaceholderIcon banks[i].icon = true
  · simp [processMatched, hnp]
  · simp [processMatched, hnp, hci]

/-- Witness for C6: in CI mode, `imgs/10.jpg` (matched to the record with
the placeholder icon) returns that existing icon value with no upload and
an unchanged registry. -/
theorem ci_frame_witness :
    (processImage cfgCI netOkW banksA (getImageInfo cfgCI "imgs/10.jpg" 2048)).result
        = Except.ok (banksA.get ⟨2, by decide⟩).icon
      ∧ (processImage cfgCI netOkW banksA (getImageInfo cfgCI "imgs/10.jpg" 2048)).banks = banksA
      ∧ (processImage cfgCI netOkW banksA (getImageInfo cfgCI "imgs/10.jpg" 2048)).uploadCalled
          = false
      ∧ (processImage cfgCI netOkW banksA
          (getImageInfo cfgCI "imgs/10.jpg" 2048)).storageAttempted = false :=
  ci_frame cfgCI netOkW banksA (getImageInfo cfgCI "imgs/10.jpg" 2048) 2
    (by decide) (by decide) (by decide) (by decide) (by decide) (by decide)

/-- C7: the spec claims `cleanup` persists the registry (with the
placeholder default applied to icon-less records) back to durable storage
before deleting files.  In the source the `fs.writeFile` call is commented
out (workflow.ts:524-527): `cleanup` computes the updated record list and
logs a success message, but nothing is ever written.  First conjunct: no
input ever makes `cleanup` write.  Second conjunct: the in-memory
`updatedBanks` list does apply the placeholder to the icon-less record, so
only the persistence step is missing. -/
theorem cleanup_never_persists :
    (∀ (cfg : Config) (banks : List Bank) (deleteOk : String → Bool)
        (completed : List String),
      (cleanup cfg banks deleteOk completed).writtenToStorage = none) ∧
    (cleanup cfgA banksA (fun _ => true) ["10.jpg"]).updatedBanks
      = [ { code := "1", nipBankCode := "999001", name := "Alpha"
          , icon := some "https://cdn/logo/default-image" }
        , { code := "77", nipBankCode := "999077", name := "Beta"
          , icon := some "https://cdn/logo/77" }
        , { code := "10", nipBankCode := "999010", name := "Gamma"
          , icon := some "https://cdn/logo/default-image" } ] := by
  constructor
  · intro cfg banks deleteOk completed
    unfold cleanup
    by_cases h : completed.isEmpty = true <;> simp [h]
  · decide

/-- C8: the deletion step of `cleanup` attempts every file of the
completed list (a failure does not stop the remaining attempts), the
deleted/failed counters count the per-file outcomes, an empty completed
list yields success (no error), and an error naming the failure count out
of the total is returned exactly when at least one deletion failed. -/
theorem cleanup_deletion_isolation (cfg : Config) (banks : List Bank)
    (deleteOk : String → Bool) (completed : List String) :
    (cleanup cfg banks deleteOk completed).deletionAttempts = completed ∧
    (cleanup cfg banks deleteOk completed).deletedCount
        = completed.countP (fun p => deleteOk p) ∧
    (cleanup cfg banks deleteOk completed).failedCount
        = completed.countP (fun p => !deleteOk p) ∧
    (completed = [] → (cleanup cfg banks deleteOk completed).result = none) ∧
    ((cleanup cfg banks deleteOk completed).failedCount = 0 →
        (cleanup cfg banks deleteOk completed).result = none) ∧
    (0 < (cleanup cfg banks deleteOk completed).failedCount →
        (cleanup cfg banks deleteOk completed).result
          = some ("Failed to delete "
              ++ toString (cleanup cfg banks deleteOk completed).failedCount
              ++ " out of " ++ toString completed.length ++ " files")) := by
  by_cases h : completed.isEmpty = true
  · have hc : completed = [] := by simpa [List.isEmpty_iff] using h
    subst hc
    simp [cleanup]
  · refine ⟨?_, ?_, ?_, ?_, ?_, ?_⟩
    · simp [cleanup, h]
    · simp [cleanup, h]
    · simp [cleanup, h]
    · intro hc
      subst hc
      simp at h
    · intro h0
      have h0a : completed.countP (fun p => !deleteOk p) = 0 := by
        simpa [cleanup, h] using h0
      simp [cleanup, h, h0a]
    · intro hpos
      have hposa : 0 < completed.countP (fun p => !deleteOk p) := by
        simpa [cleanup, h] using hpos
      simp [cleanup, h, hposa]

/-- Witness for C8: with `completed = ["10.jpg", "20.png"]` and deletion
failing only on `20.png`, both deletions are attempted and the reported
error counts one failure out of two. -/
theorem cleanup_deletion_isolation_witness :
    (cleanup cfgA banksA dokW ["10.jpg", "20.png"]).deletionAttempts = ["10.jpg", "20.png"]
    ∧ (cleanup cfgA banksA dokW ["10.jpg", "20.png"]).result
        = some ("Failed to delete "
            ++ toString (cleanup cfgA banksA dokW ["10.jpg", "20.png"]).failedCount
            ++ " out of " ++ toString (["10.jpg", "20.png"] : List String).length
            ++ " files") :=
  ⟨(cleanup_deletion_isolation cfgA banksA dokW ["10.jpg", "20.png"]).1,
   (cleanup_deletion_isolation cfgA banksA dokW ["10.jpg", "20.png"]).2.2.2.2.2 (by decide)⟩

/-- C9: with no storage configuration, `uploadToR2` fails immediately with
the configuration-error message and attempts no storage operation; under
those conditions a matched descriptor with no usable icon yields a
`FailedUploadError` from `processImage`; and the run loop routes any
descriptor whose `processImage` result is that error into the
failed_upload bucket (only), so the batch continues. -/
theorem upload_unconfigured :
    (∀ (net : String → Option String) (info : ImageInfo),
      uploadToR2 none net info = (Except.error "R2 client not configured", false)) ∧
    (∀ (cfg : Config) (net : String → Option String) (banks : List Bank)
        (info : ImageInfo) (i : Nat) (hi : i < banks.length),
      cfg.r2Config = none → cfg.isCI = false →
      info.isSupported = true → falsyStr info.code = false → info.isValidSize = true →
      jsFindIndex (bankMatches info.code) banks = some i →
      nonPlaceholderIcon (banks.get ⟨i, hi⟩).icon = false →
      (processImage cfg net banks info).result
          = Except.error (ProcessError.failedUploadError "R2 client not configured")
        ∧ (processImage cfg net banks info).storageAttempted = false) ∧
    (∀ (cfg : Config) (net : String → Option String) (stat : String → Option Nat)
        (st : RunState) (path : String) (size : Nat),
      stat path = some size →
      (processImage cfg net st.banks (getImageInfo cfg path size)).result
          = Except.error (ProcessError.failedUploadError "R2 client not configured") →
      (processFile cfg net stat st path).report.failed_upload
          = st.report.failed_upload ++ [(getImageInfo cfg path size).name]
        ∧ (processFile cfg net stat st path).report.skipped = st.report.skipped
        ∧ (processFile cfg net stat st path).report.completed = st.report.completed) := by
  refine ⟨?_, ?_, ?_⟩
  · intro net info
    rfl
  · intro cfg net banks info i hi hr2 hci hs hc hv hfind hnp
    have heq := processImage_matched cfg net banks info i hi hs hc hv hfind
    rw [heq]
    simp only [List.get_eq_getElem] at hnp
    simp [processMatched, hnp, hci, uploadToR2, hr2]
  · intro cfg net stat st path size h hres
    simp only [processFile, h]
    simp [hres]

/-- Witness for C9: with storage unconfigured, `imgs/1.png` (matched to the
icon-less record at index 0) fails with the configuration error and no
storage operation. -/
theorem upload_unconfigured_witness :
    (processImage cfgNoR2 netOkW banksA (getImageInfo cfgNoR2 "imgs/1.png" 4096)).result
        = Except.error (ProcessError.failedUploadError "R2 client not configured")
      ∧ (processImage cfgNoR2 netOkW banksA
          (getImageInfo cfgNoR2 "imgs/1.png" 4096)).storageAttempted = false :=
  upload_unconfigured.2.1 cfgNoR2 netOkW banksA (getImageInfo cfgNoR2 "imgs/1.png" 4096) 0
    (by decide) (by decide) (by decide) (by decide) (by decide) (by decide)
    (by decide) (by decide)

/-- Auxiliary for C10: whenever a descriptor is supported, `processImage`
cannot return the unsupported-format validation error (the only other
validation error carries the "Invalid size" message, which differs). -/
theorem processImage_supported_no_format_error (cfg : Config)
    (net : String → Option String) (banks : List Bank) (info : ImageInfo)
    (hs : info.isSupported = true) :
    (processImage cfg net banks info).result
      ≠ Except.error (ProcessError.validationError
          ("Unsupported format: " ++ info.type)) := by
  by_cases hc : falsyStr info.code = true
  · simp [processImage, hs, hc]
  · have hcf : falsyStr info.code = false := by simpa using hc
    by_cases hv : info.isValidSize = true
    · cases hfind : jsFindIndex (bankMatches info.code) banks with
      | none => simp [processImage, hs, hcf, hv, hfind]
      | some i =>
        obtain ⟨hlt, -, -⟩ := jsFindIndex_spec (bankMatches info.code) banks i hfind
        have heq := processImage_matched cfg net banks info i hlt hs hcf hv hfind
        rw [heq]
        simp only [List.get_eq_getElem]
        by_cases h1 : nonPlaceholderIcon banks[i].icon = true
        · simp [processMatched, h1]
        · by_cases h2 : cfg.isCI = true
          · simp [processMatched, h1, h2]
          · rcases hu : uploadToR2 cfg.r2Config net
                { info with code := some banks[i].nipBankCode } with ⟨res, att⟩
            cases res with
            | error m => simp [processMatched, h1, h2, hu]
            | ok url => simp [processMatched, h1, h2, hu]
    · have hvf : info.isValidSize = false := by simpa using hv
      simp only [processImage, hs, hcf, hvf]
      intro hcontra
      simp at hcontra
      exact invalid_size_msg_ne info.name info.type hcontra

/-- C10: every path returned by the directory scan has a (lower-cased)
extension in the supported-formats allow-list; hence every descriptor
built from such a path has `isSupported = true`, and `processImage`'s
unsupported-format failure branch is unreachable for descriptors
originating from the scan.  (The hypothesis that entry names contain no
`/` reflects what `fs.readdir` can return.) -/
theorem scan_descriptors_supported (cfg : Config) (dir : String) (fsys : FileSys)
    (report0 : Report) (hnames : ∀ e ∈ fsys.entries, '/' ∉ e.name.data) :
    ∀ p ∈ (getAllImageFiles cfg dir fsys report0).1,
      cfg.supportedFormats.contains (strToLower (extname p)) = true ∧
      ∀ size : Nat, (getImageInfo cfg p size).isSupported = true ∧
        ∀ (net : String → Option String) (banks : List Bank),
          (processImage cfg net banks (getImageInfo cfg p size)).result
            ≠ Except.error (ProcessError.validationError
                ("Unsupported format: " ++ (getImageInfo cfg p size).type)) := by
  intro p hp
  have hmem : p ∈ ([] : List String) ∨ ∃ e, e ∈ fsys.entries ∧ e.isFile = true ∧
      cfg.supportedFormats.contains (strToLower (extname e.name)) = true ∧
      p = joinPath dir e.name := by
    unfold getAllImageFiles at hp
    by_cases hr : fsys.readOk = true
    · simp only [hr, if_true] at hp
      exact scanFold_mem cfg dir fsys.entries ([], report0) p hp
    · simp [hr] at hp
  rcases hmem with h0 | ⟨e, he, hf, hcont, rfl⟩
  · simp at h0
  · have hext : extname (joinPath dir e.name) = extname e.name :=
      extname_join dir e.name (hnames e he)
    have hsup : cfg.supportedFormats.contains
        (strToLower (extname (joinPath dir e.name))) = true := by
      rw [hext]; exact hcont
    refine ⟨hsup, ?_⟩
    intro size
    have hsupp : (getImageInfo cfg (joinPath dir e.name) size).isSupported = true := by
      simpa [getImageInfo] using hsup
    exact ⟨hsupp, fun net banks =>
      processImage_supported_no_format_error cfg net banks
        (getImageInfo cfg (joinPath dir e.name) size) hsupp⟩

/-- Witness for C10: scanning the concrete directory `imgs` (containing
`77.png` and `notes.txt`) yields only `imgs/77.png`, whose descriptor is
supported and can never take the unsupported-format branch. -/
theorem scan_descriptors_supported_witness :
    (getImageInfo cfgA "imgs/77.png" 5000).isSupported = true ∧
    (processImage cfgA netOkW banksA (getImageInfo cfgA "imgs/77.png" 5000)).result
      ≠ Except.error (ProcessError.validationError
          ("Unsupported format: " ++ (getImageInfo cfgA "imgs/77.png" 5000).type)) := by
  have h := scan_descriptors_supported cfgA "imgs" fsysW emptyReport
    (by decide) "imgs/77.png" (by decide)
  exact ⟨(h.2 5000).1, (h.2 5000).2 netOkW banksA⟩
